import Mathlib

/-!
Shallow embedding of the kevhlee/chip8 emulator core (src/chip8/vm.rs,
display.rs, keyboard.rs, timer.rs, sound.rs).

Machine integers are modelled as `Nat` with explicit wrap-around (`% 256`
for `u8`, `% 65536` for `u16`) exactly where the Rust code wraps.  Arrays
are modelled as total functions out of `Nat`; every place where the Rust
code would index out of bounds (a panic) is modelled by returning `none`.
Fallible operations return `Option`; a step that returns a Rust
`Result::Err` is modelled as `some (state, some message)`, a successful
step as `some (state, none)`, and a panic as `none`.
-/

namespace Chip8

/-- Second nibble of an opcode, `(opcode >> 8) & 0xF` in vm.rs. -/
def decode_x (opcode : Nat) : Nat := opcode / 256 % 16

/-- Third nibble of an opcode, `(opcode >> 4) & 0xF` in vm.rs. -/
def decode_y (opcode : Nat) : Nat := opcode / 16 % 16

/-- Low 12 bits of an opcode, `opcode & 0xFFF` in vm.rs. -/
def decode_addr (opcode : Nat) : Nat := opcode % 4096

/-- Low byte of an opcode, `opcode & 0xFF` in vm.rs. -/
def decode_byte (opcode : Nat) : Nat := opcode % 256

/-- Low nibble of an opcode, `opcode & 0xF` in vm.rs. -/
def decode_nibb (opcode : Nat) : Nat := opcode % 16

/-- The 80-byte font table `FONTS` from vm.rs. -/
def FONTS : List Nat :=
  [0xF0, 0x90, 0x90, 0x90, 0xF0,
   0x20, 0x60, 0x20, 0x20, 0x70,
   0xF0, 0x10, 0xF0, 0x80, 0xF0,
   0xF0, 0x10, 0xF0, 0x10, 0xF0,
   0x90, 0x90, 0xF0, 0x10, 0x10,
   0xF0, 0x80, 0xF0, 0x10, 0xF0,
   0xF0, 0x80, 0xF0, 0x90, 0xF0,
   0xF0, 0x10, 0x20, 0x40, 0x40,
   0xF0, 0x90, 0xF0, 0x90, 0xF0,
   0xF0, 0x90, 0xF0, 0x10, 0xF0,
   0xF0, 0x90, 0xF0, 0x90, 0x90,
   0xE0, 0x90, 0xE0, 0x90, 0xE0,
   0xF0, 0x80, 0x80, 0x80, 0xF0,
   0xE0, 0x90, 0x90, 0x90, 0xE0,
   0xF0, 0x80, 0xF0, 0x80, 0xF0,
   0xF0, 0x80, 0xF0, 0x80, 0x80]

/-- Glyph size `FONT_SIZE` from vm.rs. -/
def FONT_SIZE : Nat := 5

/-- Program load offset `PROGRAM_START_ADDRESS` from vm.rs. -/
def PROGRAM_START_ADDRESS : Nat := 0x200

/-- Countdown timer (timer.rs); `value` is a `u8`. -/
structure Timer where
  value : Nat
deriving DecidableEq

/-- `Timer::new` from timer.rs. -/
def Timer.new : Timer := ⟨0⟩

/-- `Timer::step` from timer.rs: decrement, flooring at zero. -/
def Timer.step (t : Timer) : Timer := if t.value > 0 then ⟨t.value - 1⟩ else t

/-- `Timer::read` from timer.rs. -/
def Timer.read (t : Timer) : Nat := t.value

/-- `Timer::write` from timer.rs. -/
def Timer.write (_t : Timer) (value : Nat) : Timer := ⟨value⟩

/-- Sound countdown (sound.rs); `value` is a `u8`. -/
structure Sound where
  value : Nat
deriving DecidableEq

/-- `Sound::new` from sound.rs. -/
def Sound.new : Sound := ⟨0⟩

/-- `Sound::write` from sound.rs. -/
def Sound.write (_s : Sound) (value : Nat) : Sound := ⟨value⟩

/-- `Sound::step` from sound.rs: decrement, flooring at zero. -/
def Sound.step (s : Sound) : Sound := if s.value > 0 then ⟨s.value - 1⟩ else s

/-- Input latch (keyboard.rs): 16 key booleans (`keys : [bool; 0x10]`,
modelled as a total function meaningful on indices below 16), the
one-shot polling flag, and the latched most-recent key
(`last_pressed : i16`, `-1` when empty). -/
structure Keyboard where
  keys : Nat → Bool
  polling : Bool
  last_pressed : Int

/-- `Keyboard::new` from keyboard.rs. -/
def Keyboard.new : Keyboard := ⟨fun _ => false, false, -1⟩

/-- `Keyboard::set` from keyboard.rs.  Indexing `keys[key]` with
`key ≥ 16` would panic in Rust, hence the `Option`. -/
def Keyboard.set (kb : Keyboard) (key : Nat) (value : Bool) : Option Keyboard :=
  if key < 16 then
    some { kb with
      last_pressed := if value ∧ kb.last_pressed < 0 then (key : Int) else kb.last_pressed,
      keys := Function.update kb.keys key value }
  else none

/-- `Keyboard::is_pressed` from keyboard.rs.  Indexing with `key ≥ 16`
would panic in Rust, hence the `Option`. -/
def Keyboard.is_pressed (kb : Keyboard) (key : Nat) : Option Bool :=
  if key < 16 then some (kb.keys key) else none

/-- `Keyboard::poll` from keyboard.rs: the one-shot blocking-read
protocol.  Returns `((key, ready), new state)`.  The `% 256` mirrors the
`as u8` cast of `last_pressed`. -/
def Keyboard.poll (kb : Keyboard) : (Nat × Bool) × Keyboard :=
  if kb.polling ∧ 0 ≤ kb.last_pressed then
    ((kb.last_pressed.toNat % 256, true), { kb with polling := false, last_pressed := -1 })
  else
    ((0, false), { kb with polling := true })

/-- Display width `DISPLAY_WIDTH` from display.rs. -/
def DISPLAY_WIDTH : Nat := 0x40

/-- Display height `DISPLAY_HEIGHT` from display.rs. -/
def DISPLAY_HEIGHT : Nat := 0x20

/-- Monochrome framebuffer (display.rs): the `buffer` array, modelled as
a total function meaningful on indices below `64 * 32`.  The SDL canvas,
scale and rectangle of `Display` are presentation-only state with no
effect on the buffer and are not modelled. -/
structure Display where
  buffer : Nat → Bool

/-- A freshly constructed framebuffer (`Display::new` in display.rs):
every pixel off. -/
def Display.new : Display := ⟨fun _ => false⟩

/-- `Display::clear` from display.rs. -/
def Display.clear (_d : Display) : Display := ⟨fun _ => false⟩

/-- `Display::set` from display.rs: wrap the coordinates, report a
collision when the pixel is already lit and the incoming value is set,
and XOR the incoming value into the pixel. -/
def Display.set (d : Display) (x y : Nat) (value : Bool) : Bool × Display :=
  let idx := y % DISPLAY_HEIGHT * DISPLAY_WIDTH + x % DISPLAY_WIDTH
  (d.buffer idx && value, ⟨Function.update d.buffer idx (xor (d.buffer idx) value)⟩)

/-- CPU state (vm.rs `VirtualMachine`): index register `i : u16`,
program counter `pc : u16`, stack pointer `sp : u8`, sixteen registers
`v : [u8; 0x10]`, memory `[u8; 0x1000]`, call stack `[u16; 0x10]`.
Arrays are total functions meaningful below their Rust lengths.  The
`rng` field is modelled by passing the drawn random byte into `step`. -/
structure VirtualMachine where
  i : Nat
  pc : Nat
  sp : Nat
  v : Nat → Nat
  memory : Nat → Nat
  stack : Nat → Nat

/-- Helper for `reset`: byte `a` of the font table, 0 past its end. -/
def fontsByte (a : Nat) : Nat := FONTS.getD a 0

/-- `VirtualMachine::reset` from vm.rs: zero the index register and
stack pointer, move the program counter to `PROGRAM_START_ADDRESS`, and
copy the font table over the first `0x50` bytes of memory. -/
def VirtualMachine.reset (vm : VirtualMachine) : VirtualMachine :=
  { vm with
    i := 0
    sp := 0
    pc := PROGRAM_START_ADDRESS
    memory := fun a => if a < 0x50 then fontsByte a else vm.memory a }

/-- `VirtualMachine::new` from vm.rs: all-zero state, then `reset`. -/
def VirtualMachine.new : VirtualMachine :=
  VirtualMachine.reset ⟨0, PROGRAM_START_ADDRESS, 0, fun _ => 0, fun _ => 0, fun _ => 0⟩

/-- The copy loop of `load_bytes`: write the bytes consecutively from
`start`. -/
def writeBytes (mem : Nat → Nat) (start : Nat) : List Nat → (Nat → Nat)
  | [] => mem
  | b :: bs => writeBytes (Function.update mem start b) (start + 1) bs

/-- `VirtualMachine::load_bytes` from vm.rs.  The guard compares the
program size against the whole 4096-byte memory; when the program fits
under the guard but overruns memory from offset `0x200` the copy loop
indexes out of bounds, which is a Rust panic, modelled as `none`. -/
def VirtualMachine.load_bytes (vm : VirtualMachine) (bytes : List Nat) :
    Option (Except String VirtualMachine) :=
  if 4096 < bytes.length then some (Except.error "Too many bytes")
  else if PROGRAM_START_ADDRESS + bytes.length ≤ 4096 then
    some (Except.ok { vm with memory := writeBytes vm.memory PROGRAM_START_ADDRESS bytes })
  else none

/-- `VirtualMachine::fetch_opcode` from vm.rs: read the big-endian
instruction word at `pc` and advance `pc` by 2.  Both byte reads index
`memory`, so `pc + 1 ≥ 4096` is a panic, modelled as `none`.  Because
memory bytes are below 256, `(hi << 8) | lo` equals `hi * 256 + lo`. -/
def VirtualMachine.fetch_opcode (vm : VirtualMachine) :
    Option (Nat × VirtualMachine) :=
  if vm.pc + 1 < 4096 then
    some (vm.memory vm.pc * 256 + vm.memory (vm.pc + 1), { vm with pc := vm.pc + 2 })
  else none

/-- Joint state of the engine and its peripherals, i.e. everything
`VirtualMachine::step` can touch. -/
structure Config where
  vm : VirtualMachine
  timer : Timer
  sound : Sound
  display : Display
  keyboard : Keyboard

/-- Opcode class `0x0` (vm.rs `exec_opcode_0x0`): clear screen, return,
or silently ignore. -/
def exec_opcode_0x0 (c : Config) (opcode : Nat) : Option (Config × Option String) :=
  if opcode = 0x00E0 then some ({ c with display := c.display.clear }, none)
  else if opcode = 0x00EE then
    if c.vm.sp = 0 then some (c, some "Empty call stack")
    else some ({ c with vm := { c.vm with
      sp := c.vm.sp - 1
      pc := c.vm.stack (c.vm.sp - 1) } }, none)
  else some (c, none)

/-- Opcode class `0x1` (vm.rs): `JP addr`. -/
def exec_opcode_0x1 (c : Config) (opcode : Nat) : Option (Config × Option String) :=
  some ({ c with vm := { c.vm with pc := decode_addr opcode } }, none)

/-- Opcode class `0x2` (vm.rs): `CALL addr`, failing on a full stack. -/
def exec_opcode_0x2 (c : Config) (opcode : Nat) : Option (Config × Option String) :=
  if c.vm.sp > 0xF then some (c, some "Call stack overflow")
  else some ({ c with vm := { c.vm with
    stack := Function.update c.vm.stack c.vm.sp c.vm.pc
    sp := c.vm.sp + 1
    pc := decode_addr opcode } }, none)

/-- Opcode class `0x3` (vm.rs): `SE Vx, byte`. -/
def exec_opcode_0x3 (c : Config) (opcode : Nat) : Option (Config × Option String) :=
  if c.vm.v (decode_x opcode) = decode_byte opcode then
    some ({ c with vm := { c.vm with pc := c.vm.pc + 2 } }, none)
  else some (c, none)

/-- Opcode class `0x4` (vm.rs): `SNE Vx, byte`. -/
def exec_opcode_0x4 (c : Config) (opcode : Nat) : Option (Config × Option String) :=
  if c.vm.v (decode_x opcode) ≠ decode_byte opcode then
    some ({ c with vm := { c.vm with pc := c.vm.pc + 2 } }, none)
  else some (c, none)

/-- Opcode class `0x5` (vm.rs): `SE Vx, Vy`, only when the trailing
nibble is zero. -/
def exec_opcode_0x5 (c : Config) (opcode : Nat) : Option (Config × Option String) :=
  if decode_nibb opcode = 0 ∧ c.vm.v (decode_x opcode) = c.vm.v (decode_y opcode) then
    some ({ c with vm := { c.vm with pc := c.vm.pc + 2 } }, none)
  else some (c, none)

/-- Opcode class `0x6` (vm.rs): `LD Vx, byte`. -/
def exec_opcode_0x6 (c : Config) (opcode : Nat) : Option (Config × Option String) :=
  some ({ c with vm := { c.vm with
    v := Function.update c.vm.v (decode_x opcode) (decode_byte opcode) } }, none)

/-- Opcode class `0x7` (vm.rs): `ADD Vx, byte` with 8-bit wrap-around
(`wrapping_add`) and no flag effect. -/
def exec_opcode_0x7 (c : Config) (opcode : Nat) : Option (Config × Option String) :=
  some ({ c with vm := { c.vm with
    v := Function.update c.vm.v (decode_x opcode)
      ((c.vm.v (decode_x opcode) + decode_byte opcode) % 256) } }, none)

/-- Register file after the opcode-class-`0x8` ALU group (vm.rs
`exec_opcode_0x8`).  Each arm mirrors the source: the flag write to
`v[0xF]` happens before the result write to `v[x]`, and the shift arms
re-read `v[x]` after the flag write, exactly as the Rust statements
execute. -/
def alu8 (v : Nat → Nat) (x y nibb : Nat) : Nat → Nat :=
  if nibb = 0x0 then Function.update v x (v y)
  else if nibb = 0x1 then Function.update v x (Nat.lor (v x) (v y))
  else if nibb = 0x2 then Function.update v x (Nat.land (v x) (v y))
  else if nibb = 0x3 then Function.update v x (Nat.xor (v x) (v y))
  else if nibb = 0x4 then
    Function.update (Function.update v 0xF (if 256 ≤ v x + v y then 1 else 0)) x
      ((v x + v y) % 256)
  else if nibb = 0x5 then
    Function.update (Function.update v 0xF (if v x < v y then 0 else 1)) x
      ((v x + 256 - v y) % 256)
  else if nibb = 0x6 then
    let v1 := Function.update v 0xF (v x % 2)
    Function.update v1 x (v1 x / 2)
  else if nibb = 0x7 then
    Function.update (Function.update v 0xF (if v y < v x then 0 else 1)) x
      ((v y + 256 - v x) % 256)
  else if nibb = 0xE then
    let v1 := Function.update v 0xF (v x / 128)
    Function.update v1 x (v1 x * 2 % 256)
  else v

/-- Opcode class `0x8` (vm.rs): the ALU register-register group. -/
def exec_opcode_0x8 (c : Config) (opcode : Nat) : Option (Config × Option String) :=
  some ({ c with vm := { c.vm with
    v := alu8 c.vm.v (decode_x opcode) (decode_y opcode) (decode_nibb opcode) } }, none)

/-- Opcode class `0x9` (vm.rs): `SNE Vx, Vy`, only when the trailing
nibble is zero. -/
def exec_opcode_0x9 (c : Config) (opcode : Nat) : Option (Config × Option String) :=
  if decode_nibb opcode = 0 ∧ c.vm.v (decode_x opcode) ≠ c.vm.v (decode_y opcode) then
    some ({ c with vm := { c.vm with pc := c.vm.pc + 2 } }, none)
  else some (c, none)

/-- Opcode class `0xA` (vm.rs): `LD I, addr`. -/
def exec_opcode_0xA (c : Config) (opcode : Nat) : Option (Config × Option String) :=
  some ({ c with vm := { c.vm with i := decode_addr opcode } }, none)

/-- Opcode class `0xB` (vm.rs): `JP V0, addr` with 16-bit wrap-around
(`wrapping_add`). -/
def exec_opcode_0xB (c : Config) (opcode : Nat) : Option (Config × Option String) :=
  some ({ c with vm := { c.vm with
    pc := (decode_addr opcode + c.vm.v 0) % 65536 } }, none)

/-- Opcode class `0xC` (vm.rs): `RND Vx, byte`; `rnd % 256` stands for
the `u8` drawn from the thread RNG. -/
def exec_opcode_0xC (c : Config) (opcode rnd : Nat) : Option (Config × Option String) :=
  some ({ c with vm := { c.vm with
    v := Function.update c.vm.v (decode_x opcode)
      (Nat.land (rnd % 256) (decode_byte opcode)) } }, none)

/-- One 8-pixel sprite row of `exec_opcode_0xD` (vm.rs): iteration `j`
of the inner loop toggles the pixel at column `x + (7 - j)` with bit `j`
of the row byte, accumulating the collision flag. -/
def drawRow (p : Bool × Display) (x y byte : Nat) : Bool × Display :=
  (List.range 8).foldl
    (fun q j =>
      let r := q.2.set (x + (7 - j)) y (byte / 2 ^ j % 2 == 1)
      (q.1 || r.1, r.2)) p

/-- Opcode class `0xD` (vm.rs): `DRW Vx, Vy, nibb`, drawing at the
wrapped coordinates `(v[x], v[y])`.  Row `row` reads `memory[i + row]`;
a read past the end of memory is a panic (`none`). -/
def exec_opcode_0xD (c : Config) (opcode : Nat) : Option (Config × Option String) :=
  if decode_nibb opcode = 0 ∨ c.vm.i + decode_nibb opcode ≤ 4096 then
    let r := (List.range (decode_nibb opcode)).foldl
      (fun p row => drawRow p (c.vm.v (decode_x opcode))
        (c.vm.v (decode_y opcode) + row) (c.vm.memory (c.vm.i + row)))
      (false, c.display)
    some ({ c with
      display := r.2
      vm := { c.vm with v := Function.update c.vm.v 0xF (if r.1 then 1 else 0) } }, none)
  else none

/-- Opcode class `0xE` (vm.rs): skip if key pressed / not pressed.  The
key index read is `v[x]`, and `Keyboard::is_pressed` panics for values
at or above 16 (the `= none` branch); otherwise the skip happens exactly
when the returned boolean demands it. -/
def exec_opcode_0xE (c : Config) (opcode : Nat) : Option (Config × Option String) :=
  if decode_byte opcode = 0x9E then
    if c.keyboard.is_pressed (c.vm.v (decode_x opcode)) = none then none
    else if c.keyboard.is_pressed (c.vm.v (decode_x opcode)) = some true then
      some ({ c with vm := { c.vm with pc := c.vm.pc + 2 } }, none)
    else some (c, none)
  else if decode_byte opcode = 0xA1 then
    if c.keyboard.is_pressed (c.vm.v (decode_x opcode)) = none then none
    else if c.keyboard.is_pressed (c.vm.v (decode_x opcode)) = some true then
      some (c, none)
    else some ({ c with vm := { c.vm with pc := c.vm.pc + 2 } }, none)
  else some (c, none)

/-- The `Fx55` store loop (vm.rs): `memory[i + k] = v[k]` for
`k = 0, ..., x`. -/
def storeRegs (mem : Nat → Nat) (i : Nat) (v : Nat → Nat) : Nat → (Nat → Nat)
  | 0 => Function.update mem i (v 0)
  | k + 1 => Function.update (storeRegs mem i v k) (i + (k + 1)) (v (k + 1))

/-- The `Fx65` load loop (vm.rs): `v[k] = memory[i + k]` for
`k = 0, ..., x`. -/
def loadRegs (v : Nat → Nat) (mem : Nat → Nat) (i : Nat) : Nat → (Nat → Nat)
  | 0 => Function.update v 0 (mem i)
  | k + 1 => Function.update (loadRegs v mem i k) (k + 1) (mem (i + (k + 1)))

/-- Opcode class `0xF` (vm.rs `exec_opcode_0xF`): timers, blocking key
read, index arithmetic, font address, BCD store, and register block
store/load.  `i += v[x]` wraps as a `u16`; the memory writes of `Fx33`
and the loops of `Fx55`/`Fx65` panic (`none`) when they index past the
end of memory. -/
def exec_opcode_0xF (c : Config) (opcode : Nat) : Option (Config × Option String) :=
  if decode_byte opcode = 0x07 then
    some ({ c with vm := { c.vm with
      v := Function.update c.vm.v (decode_x opcode) c.timer.read } }, none)
  else if decode_byte opcode = 0x0A then
    if (c.keyboard.poll).1.2 then
      some ({ c with
        keyboard := (c.keyboard.poll).2
        vm := { c.vm with
          v := Function.update c.vm.v (decode_x opcode) (c.keyboard.poll).1.1 } }, none)
    else
      some ({ c with
        keyboard := (c.keyboard.poll).2
        vm := { c.vm with pc := c.vm.pc - 2 } }, none)
  else if decode_byte opcode = 0x15 then
    some ({ c with timer := c.timer.write (c.vm.v (decode_x opcode)) }, none)
  else if decode_byte opcode = 0x18 then
    some ({ c with sound := c.sound.write (c.vm.v (decode_x opcode)) }, none)
  else if decode_byte opcode = 0x1E then
    some ({ c with vm := { c.vm with
      i := (c.vm.i + c.vm.v (decode_x opcode)) % 65536 } }, none)
  else if decode_byte opcode = 0x29 then
    some ({ c with vm := { c.vm with
      i := c.vm.v (decode_x opcode) * FONT_SIZE } }, none)
  else if decode_byte opcode = 0x33 then
    if c.vm.i + 2 < 4096 then
      some ({ c with vm := { c.vm with
        memory :=
          Function.update
            (Function.update
              (Function.update c.vm.memory c.vm.i (c.vm.v (decode_x opcode) / 100))
              (c.vm.i + 1) (c.vm.v (decode_x opcode) % 100 / 100))
            (c.vm.i + 2) (c.vm.v (decode_x opcode) % 10) } }, none)
    else none
  else if decode_byte opcode = 0x55 then
    if c.vm.i + decode_x opcode < 4096 then
      some ({ c with vm := { c.vm with
        memory := storeRegs c.vm.memory c.vm.i c.vm.v (decode_x opcode) } }, none)
    else none
  else if decode_byte opcode = 0x65 then
    if c.vm.i + decode_x opcode < 4096 then
      some ({ c with vm := { c.vm with
        v := loadRegs c.vm.v c.vm.memory c.vm.i (decode_x opcode) } }, none)
    else none
  else some (c, none)

/-- The opcode-class dispatch of `VirtualMachine::step` (vm.rs),
matching on the top nibble; the unreachable arm of the source match is a
panic (`none`). -/
def dispatch (c : Config) (opcode rnd : Nat) : Option (Config × Option String) :=
  if opcode / 4096 = 0x0 then exec_opcode_0x0 c opcode
  else if opcode / 4096 = 0x1 then exec_opcode_0x1 c opcode
  else if opcode / 4096 = 0x2 then exec_opcode_0x2 c opcode
  else if opcode / 4096 = 0x3 then exec_opcode_0x3 c opcode
  else if opcode / 4096 = 0x4 then exec_opcode_0x4 c opcode
  else if opcode / 4096 = 0x5 then exec_opcode_0x5 c opcode
  else if opcode / 4096 = 0x6 then exec_opcode_0x6 c opcode
  else if opcode / 4096 = 0x7 then exec_opcode_0x7 c opcode
  else if opcode / 4096 = 0x8 then exec_opcode_0x8 c opcode
  else if opcode / 4096 = 0x9 then exec_opcode_0x9 c opcode
  else if opcode / 4096 = 0xA then exec_opcode_0xA c opcode
  else if opcode / 4096 = 0xB then exec_opcode_0xB c opcode
  else if opcode / 4096 = 0xC then exec_opcode_0xC c opcode rnd
  else if opcode / 4096 = 0xD then exec_opcode_0xD c opcode
  else if opcode / 4096 = 0xE then exec_opcode_0xE c opcode
  else if opcode / 4096 = 0xF then exec_opcode_0xF c opcode
  else none

/-- `VirtualMachine::step` (vm.rs): fetch the instruction word (which
advances `pc` by 2) and dispatch on its top nibble.  `rnd` is the byte
the thread RNG would produce for a `Cxkk` instruction this step. -/
def step (c : Config) (rnd : Nat) : Option (Config × Option String) :=
  match c.vm.fetch_opcode with
  | none => none
  | some r => dispatch { c with vm := r.2 } r.1 rnd

/-- A freshly constructed engine-plus-peripherals state holding the
given CPU state, as built in mod.rs before the frame loop starts. -/
def initConfig (vm : VirtualMachine) : Config :=
  ⟨vm, Timer.new, Sound.new, Display.new, Keyboard.new⟩

/-- States reachable from the freshly constructed (reset) machine by a
successful program load followed by any sequence of `step` calls.  Both
`Ok` and `Err` step outcomes leave a usable state behind (the driver in
mod.rs logs the error and keeps stepping), so both extend the reachable
set.  Program bytes come from a Rust `Vec<u8>`, hence below 256. -/
inductive Reach : Config → Prop where
  | init (bytes : List Nat) (vm1 : VirtualMachine)
      (hbytes : ∀ b ∈ bytes, b < 256)
      (hload : VirtualMachine.new.load_bytes bytes = some (Except.ok vm1)) :
      Reach (initConfig vm1)
  | next (c c1 : Config) (rnd : Nat) (msg : Option String)
      (hc : Reach c) (hstep : step c rnd = some (c1, msg)) : Reach c1

/-- Pointwise strict bound is preserved by a pointwise update. -/
lemma update_lt {f : Nat → Nat} {B a val : Nat} (hf : ∀ k, f k < B) (hval : val < B) :
    ∀ k, Function.update f a val k < B := by
  intro k
  rcases eq_or_ne k a with rfl | hne
  · rw [Function.update_same]; exact hval
  · rw [Function.update_noteq hne]; exact hf k

/-- Pointwise non-strict bound is preserved by a pointwise update. -/
lemma update_le {f : Nat → Nat} {B a val : Nat} (hf : ∀ k, f k ≤ B) (hval : val ≤ B) :
    ∀ k, Function.update f a val k ≤ B := by
  intro k
  rcases eq_or_ne k a with rfl | hne
  · rw [Function.update_same]; exact hval
  · rw [Function.update_noteq hne]; exact hf k

/-- Bitwise or of two bytes is a byte. -/
lemma lor_lt_256 {x y : Nat} (hx : x < 256) (hy : y < 256) : Nat.lor x y < 256 := by
  have h : Nat.lor x y < 2 ^ 8 :=
    Nat.bitwise_lt (by norm_num at hx ⊢; exact hx) (by norm_num at hy ⊢; exact hy)
  norm_num at h; exact h

/-- Bitwise and of two bytes is a byte. -/
lemma land_lt_256 {x y : Nat} (hx : x < 256) (hy : y < 256) : Nat.land x y < 256 := by
  have h : Nat.land x y < 2 ^ 8 :=
    Nat.bitwise_lt (by norm_num at hx ⊢; exact hx) (by norm_num at hy ⊢; exact hy)
  norm_num at h; exact h

/-- Bitwise xor of two bytes is a byte. -/
lemma xor_lt_256 {x y : Nat} (hx : x < 256) (hy : y < 256) : Nat.xor x y < 256 := by
  have h : Nat.xor x y < 2 ^ 8 :=
    Nat.bitwise_lt (by norm_num at hx ⊢; exact hx) (by norm_num at hy ⊢; exact hy)
  norm_num at h; exact h

/-- Every byte of the font table is a byte. -/
lemma fontsByte_lt : ∀ a, fontsByte a < 256 := by
  intro a
  by_cases h : a < 80
  · have hb : ∀ b, b < 80 → FONTS.getD b 0 < 256 := by decide
    exact hb a h
  · unfold fontsByte
    rw [List.getD_eq_default]
    · norm_num
    · have hlen : FONTS.length = 80 := rfl
      omega

/-- The load-copy loop preserves bytewise bounds when the program bytes
are bytes. -/
lemma writeBytes_lt {bytes : List Nat} :
    ∀ {mem : Nat → Nat} {start : Nat}, (∀ a, mem a < 256) → (∀ b ∈ bytes, b < 256) →
    ∀ a, writeBytes mem start bytes a < 256 := by
  induction bytes with
  | nil => intro mem start hmem _ a; exact hmem a
  | cons b bs ih =>
    intro mem start hmem hb a
    unfold writeBytes
    exact ih (update_lt hmem (hb b (List.mem_cons_self b bs)))
      (fun x hx => hb x (List.mem_cons_of_mem b hx)) a

/-- The `Fx55` store loop preserves bytewise memory bounds. -/
lemma storeRegs_lt {mem : Nat → Nat} {i : Nat} {v : Nat → Nat}
    (hmem : ∀ a, mem a < 256) (hv : ∀ k, v k < 256) :
    ∀ x a, storeRegs mem i v x a < 256 := by
  intro x
  induction x with
  | zero => exact update_lt hmem (hv 0)
  | succ k ih => exact update_lt ih (hv (k + 1))

/-- The `Fx65` load loop preserves bytewise register bounds. -/
lemma loadRegs_lt {v : Nat → Nat} {mem : Nat → Nat} {i : Nat}
    (hv : ∀ k, v k < 256) (hmem : ∀ a, mem a < 256) :
    ∀ x k, loadRegs v mem i x k < 256 := by
  intro x
  induction x with
  | zero => exact update_lt hv (hmem i)
  | succ k ih => exact update_lt ih (hmem (i + (k + 1)))

set_option maxHeartbeats 2000000 in
/-- The ALU group keeps all registers below 256. -/
lemma alu8_lt {v : Nat → Nat} (hv : ∀ k, v k < 256) (x y nibb : Nat) :
    ∀ k, alu8 v x y nibb k < 256 := by
  unfold alu8
  split_ifs
  · exact update_lt hv (hv y)
  · exact update_lt hv (lor_lt_256 (hv x) (hv y))
  · exact update_lt hv (land_lt_256 (hv x) (hv y))
  · exact update_lt hv (xor_lt_256 (hv x) (hv y))
  · exact update_lt (update_lt hv (by norm_num)) (Nat.mod_lt _ (by norm_num))
  · exact update_lt (update_lt hv (by norm_num)) (Nat.mod_lt _ (by norm_num))
  · exact update_lt (update_lt hv (by norm_num)) (Nat.mod_lt _ (by norm_num))
  · exact update_lt (update_lt hv (by norm_num)) (Nat.mod_lt _ (by norm_num))
  · have h1 : ∀ k, Function.update v 0xF (v x % 2) k < 256 :=
      update_lt hv (lt_of_lt_of_le (Nat.mod_lt _ (by norm_num)) (by norm_num))
    exact update_lt h1 (lt_of_le_of_lt (Nat.div_le_self _ _) (h1 x))
  · exact update_lt (update_lt hv (by norm_num)) (Nat.mod_lt _ (by norm_num))
  · exact update_lt (update_lt hv (by norm_num)) (Nat.mod_lt _ (by norm_num))
  · have h1 : ∀ k, Function.update v 0xF (v x / 128) k < 256 :=
      update_lt hv (lt_of_le_of_lt (Nat.div_le_self _ _) (hv x))
    exact update_lt h1 (Nat.mod_lt _ (by norm_num))
  · exact hv

/-- Size invariant on reachable engine states: the program counter never
exceeds `0x10FE` (it can leave the 4096-byte memory, but not by more
than a 12-bit jump target plus a register), every stored return address
is at most `0x1000`, registers and memory hold bytes, and the delay
timer holds a byte. -/
def InvC (c : Config) : Prop :=
  c.vm.pc ≤ 0x10FE ∧ (∀ k, c.vm.stack k ≤ 0x1000) ∧ (∀ k, c.vm.v k < 256) ∧
    (∀ a, c.vm.memory a < 256) ∧ c.timer.value < 256

/-- Size facts available right after a successful fetch: the advanced
program counter is at most `0x1000`, and the remaining components are
bounded as in `InvC`. -/
def PreInv (c : Config) : Prop :=
  c.vm.pc ≤ 0x1000 ∧ (∀ k, c.vm.stack k ≤ 0x1000) ∧ (∀ k, c.vm.v k < 256) ∧
    (∀ a, c.vm.memory a < 256) ∧ c.timer.value < 256

/-- Register bound on the key delivered by a ready poll. -/
lemma poll_fst_lt (kb : Keyboard) : (kb.poll).1.1 < 256 := by
  unfold Keyboard.poll
  split_ifs
  · exact Nat.mod_lt _ (by norm_num)
  · norm_num

/-- Opcode class `0x0` preserves the size invariant. -/
lemma exec0_inv {c c1 : Config} {opcode : Nat} {msg : Option String}
    (hpre : PreInv c) (h : exec_opcode_0x0 c opcode = some (c1, msg)) : InvC c1 := by
  obtain ⟨hpc, hstk, hv, hmem, ht⟩ := hpre
  unfold exec_opcode_0x0 at h
  split_ifs at h <;>
    (simp only [Option.some.injEq, Prod.mk.injEq] at h
     obtain ⟨h4, h5⟩ := h
     subst h4
     refine ⟨?_, ?_, ?_, ?_, ?_⟩) <;>
    first
    | exact hstk
    | exact hv
    | exact hmem
    | exact ht
    | exact le_trans hpc (by norm_num)
    | exact le_trans (hstk _) (by norm_num)

/-- Opcode class `0x1` preserves the size invariant. -/
lemma exec1_inv {c c1 : Config} {opcode : Nat} {msg : Option String}
    (hpre : PreInv c) (h : exec_opcode_0x1 c opcode = some (c1, msg)) : InvC c1 := by
  obtain ⟨hpc, hstk, hv, hmem, ht⟩ := hpre
  unfold exec_opcode_0x1 at h
  simp only [Option.some.injEq, Prod.mk.injEq] at h
  obtain ⟨h4, h5⟩ := h
  subst h4
  exact ⟨le_trans (le_of_lt (Nat.mod_lt _ (by norm_num))) (by norm_num),
    hstk, hv, hmem, ht⟩

/-- Opcode class `0x2` preserves the size invariant. -/
lemma exec2_inv {c c1 : Config} {opcode : Nat} {msg : Option String}
    (hpre : PreInv c) (h : exec_opcode_0x2 c opcode = some (c1, msg)) : InvC c1 := by
  obtain ⟨hpc, hstk, hv, hmem, ht⟩ := hpre
  unfold exec_opcode_0x2 at h
  split_ifs at h <;>
    (simp only [Option.some.injEq, Prod.mk.injEq] at h
     obtain ⟨h4, h5⟩ := h
     subst h4
     refine ⟨?_, ?_, ?_, ?_, ?_⟩) <;>
    first
    | exact hv
    | exact hmem
    | exact ht
    | exact hstk
    | exact update_le hstk hpc
    | exact le_trans hpc (by norm_num)
    | exact le_trans (le_of_lt (Nat.mod_lt _ (by norm_num))) (by norm_num)

/-- Opcode class `0x3` preserves the size invariant. -/
lemma exec3_inv {c c1 : Config} {opcode : Nat} {msg : Option String}
    (hpre : PreInv c) (h : exec_opcode_0x3 c opcode = some (c1, msg)) : InvC c1 := by
  obtain ⟨hpc, hstk, hv, hmem, ht⟩ := hpre
  unfold exec_opcode_0x3 at h
  split_ifs at h <;>
    (simp only [Option.some.injEq, Prod.mk.injEq] at h
     obtain ⟨h4, h5⟩ := h
     subst h4
     refine ⟨?_, ?_, ?_, ?_, ?_⟩) <;>
    first
    | exact hstk
    | exact hv
    | exact hmem
    | exact ht
    | exact le_trans hpc (by norm_num)
    | exact le_trans (Nat.add_le_add_right hpc 2) (by norm_num)

/-- Opcode class `0x4` preserves the size invariant. -/
lemma exec4_inv {c c1 : Config} {opcode : Nat} {msg : Option String}
    (hpre : PreInv c) (h : exec_opcode_0x4 c opcode = some (c1, msg)) : InvC c1 := by
  obtain ⟨hpc, hstk, hv, hmem, ht⟩ := hpre
  unfold exec_opcode_0x4 at h
  split_ifs at h <;>
    (simp only [Option.some.injEq, Prod.mk.injEq] at h
     obtain ⟨h4, h5⟩ := h
     subst h4
     refine ⟨?_, ?_, ?_, ?_, ?_⟩) <;>
    first
    | exact hstk
    | exact hv
    | exact hmem
    | exact ht
    | exact le_trans hpc (by norm_num)
    | exact le_trans (Nat.add_le_add_right hpc 2) (by norm_num)

/-- Opcode class `0x5` preserves the size invariant. -/
lemma exec5_inv {c c1 : Config} {opcode : Nat} {msg : Option String}
    (hpre : PreInv c) (h : exec_opcode_0x5 c opcode = some (c1, msg)) : InvC c1 := by
  obtain ⟨hpc, hstk, hv, hmem, ht⟩ := hpre
  unfold exec_opcode_0x5 at h
  split_ifs at h <;>
    (simp only [Option.some.injEq, Prod.mk.injEq] at h
     obtain ⟨h4, h5⟩ := h
     subst h4
     refine ⟨?_, ?_, ?_, ?_, ?_⟩) <;>
    first
    | exact hstk
    | exact hv
    | exact hmem
    | exact ht
    | exact le_trans hpc (by norm_num)
    | exact le_trans (Nat.add_le_add_right hpc 2) (by norm_num)

/-- Opcode class `0x6` preserves the size invariant. -/
lemma exec6_inv {c c1 : Config} {opcode : Nat} {msg : Option String}
    (hpre : PreInv c) (h : exec_opcode_0x6 c opcode = some (c1, msg)) : InvC c1 := by
  obtain ⟨hpc, hstk, hv, hmem, ht⟩ := hpre
  unfold exec_opcode_0x6 at h
  simp only [Option.some.injEq, Prod.mk.injEq] at h
  obtain ⟨h4, h5⟩ := h
  subst h4
  exact ⟨le_trans hpc (by norm_num), hstk,
    update_lt hv (Nat.mod_lt _ (by norm_num)), hmem, ht⟩

/-- Opcode class `0x7` preserves the size invariant. -/
lemma exec7_inv {c c1 : Config} {opcode : Nat} {msg : Option String}
    (hpre : PreInv c) (h : exec_opcode_0x7 c opcode = some (c1, msg)) : InvC c1 := by
  obtain ⟨hpc, hstk, hv, hmem, ht⟩ := hpre
  unfold exec_opcode_0x7 at h
  simp only [Option.some.injEq, Prod.mk.injEq] at h
  obtain ⟨h4, h5⟩ := h
  subst h4
  exact ⟨le_trans hpc (by norm_num), hstk,
    update_lt hv (Nat.mod_lt _ (by norm_num)), hmem, ht⟩

/-- Opcode class `0x8` preserves the size invariant. -/
lemma exec8_inv {c c1 : Config} {opcode : Nat} {msg : Option String}
    (hpre : PreInv c) (h : exec_opcode_0x8 c opcode = some (c1, msg)) : InvC c1 := by
  obtain ⟨hpc, hstk, hv, hmem, ht⟩ := hpre
  unfold exec_opcode_0x8 at h
  simp only [Option.some.injEq, Prod.mk.injEq] at h
  obtain ⟨h4, h5⟩ := h
  subst h4
  exact ⟨le_trans hpc (by norm_num), hstk, alu8_lt hv _ _ _, hmem, ht⟩

/-- Opcode class `0x9` preserves the size invariant. -/
lemma exec9_inv {c c1 : Config} {opcode : Nat} {msg : Option String}
    (hpre : PreInv c) (h : exec_opcode_0x9 c opcode = some (c1, msg)) : InvC c1 := by
  obtain ⟨hpc, hstk, hv, hmem, ht⟩ := hpre
  unfold exec_opcode_0x9 at h
  split_ifs at h <;>
    (simp only [Option.some.injEq, Prod.mk.injEq] at h
     obtain ⟨h4, h5⟩ := h
     subst h4
     refine ⟨?_, ?_, ?_, ?_, ?_⟩) <;>
    first
    | exact hstk
    | exact hv
    | exact hmem
    | exact ht
    | exact le_trans hpc (by norm_num)
    | exact le_trans (Nat.add_le_add_right hpc 2) (by norm_num)

/-- Opcode class `0xA` preserves the size invariant. -/
lemma execA_inv {c c1 : Config} {opcode : Nat} {msg : Option String}
    (hpre : PreInv c) (h : exec_opcode_0xA c opcode = some (c1, msg)) : InvC c1 := by
  obtain ⟨hpc, hstk, hv, hmem, ht⟩ := hpre
  unfold exec_opcode_0xA at h
  simp only [Option.some.injEq, Prod.mk.injEq] at h
  obtain ⟨h4, h5⟩ := h
  subst h4
  exact ⟨le_trans hpc (by norm_num), hstk, hv, hmem, ht⟩

/-- Opcode class `0xB` preserves the size invariant: a 12-bit jump
target plus a register byte stays at or below `0x10FE`. -/
lemma execB_inv {c c1 : Config} {opcode : Nat} {msg : Option String}
    (hpre : PreInv c) (h : exec_opcode_0xB c opcode = some (c1, msg)) : InvC c1 := by
  obtain ⟨hpc, hstk, hv, hmem, ht⟩ := hpre
  unfold exec_opcode_0xB at h
  simp only [Option.some.injEq, Prod.mk.injEq] at h
  obtain ⟨h4, h5⟩ := h
  subst h4
  refine ⟨le_trans (Nat.mod_le _ _) ?_, hstk, hv, hmem, ht⟩
  have hv0 := hv 0
  simp only [decode_addr]
  omega

/-- Opcode class `0xC` preserves the size invariant. -/
lemma execC_inv {c c1 : Config} {opcode rnd : Nat} {msg : Option String}
    (hpre : PreInv c) (h : exec_opcode_0xC c opcode rnd = some (c1, msg)) : InvC c1 := by
  obtain ⟨hpc, hstk, hv, hmem, ht⟩ := hpre
  unfold exec_opcode_0xC at h
  simp only [Option.some.injEq, Prod.mk.injEq] at h
  obtain ⟨h4, h5⟩ := h
  subst h4
  exact ⟨le_trans hpc (by norm_num), hstk,
    update_lt hv (land_lt_256 (Nat.mod_lt _ (by norm_num)) (Nat.mod_lt _ (by norm_num))),
    hmem, ht⟩

/-- The collision flag written by the draw opcode is a byte. -/
lemma flag_lt_256 (b : Bool) : (if b = true then (1 : Nat) else 0) < 256 := by
  cases b <;> norm_num

/-- Opcode class `0xD` preserves the size invariant. -/
lemma execD_inv {c c1 : Config} {opcode : Nat} {msg : Option String}
    (hpre : PreInv c) (h : exec_opcode_0xD c opcode = some (c1, msg)) : InvC c1 := by
  obtain ⟨hpc, hstk, hv, hmem, ht⟩ := hpre
  unfold exec_opcode_0xD at h
  split_ifs at h
  simp only [Option.some.injEq, Prod.mk.injEq] at h
  obtain ⟨h4, h5⟩ := h
  subst h4
  exact ⟨le_trans hpc (by norm_num), hstk, update_lt hv (flag_lt_256 _), hmem, ht⟩

/-- Opcode class `0xE` preserves the size invariant. -/
lemma execE_inv {c c1 : Config} {opcode : Nat} {msg : Option String}
    (hpre : PreInv c) (h : exec_opcode_0xE c opcode = some (c1, msg)) : InvC c1 := by
  obtain ⟨hpc, hstk, hv, hmem, ht⟩ := hpre
  unfold exec_opcode_0xE at h
  split_ifs at h <;>
    first
    | exact Option.noConfusion h
    | (simp only [Option.some.injEq, Prod.mk.injEq] at h
       obtain ⟨h4, h5⟩ := h
       subst h4
       refine ⟨?_, ?_, ?_, ?_, ?_⟩ <;>
         first
         | exact hstk
         | exact hv
         | exact hmem
         | exact ht
         | exact le_trans hpc (by norm_num)
         | exact le_trans (Nat.add_le_add_right hpc 2) (by norm_num))

/-- Opcode class `0xF` preserves the size invariant. -/
lemma execF_inv {c c1 : Config} {opcode : Nat} {msg : Option String}
    (hpre : PreInv c) (h : exec_opcode_0xF c opcode = some (c1, msg)) : InvC c1 := by
  obtain ⟨hpc, hstk, hv, hmem, ht⟩ := hpre
  unfold exec_opcode_0xF at h
  by_cases h07 : decode_byte opcode = 0x07
  · rw [if_pos h07] at h
    simp only [Option.some.injEq, Prod.mk.injEq] at h
    obtain ⟨h4, h5⟩ := h
    subst h4
    exact ⟨le_trans hpc (by norm_num), hstk, update_lt hv ht, hmem, ht⟩
  rw [if_neg h07] at h
  by_cases h0A : decode_byte opcode = 0x0A
  · rw [if_pos h0A] at h
    by_cases hrdy : c.keyboard.poll.1.2 = true
    · rw [if_pos hrdy] at h
      simp only [Option.some.injEq, Prod.mk.injEq] at h
      obtain ⟨h4, h5⟩ := h
      subst h4
      exact ⟨le_trans hpc (by norm_num), hstk, update_lt hv (poll_fst_lt _), hmem, ht⟩
    · rw [if_neg hrdy] at h
      simp only [Option.some.injEq, Prod.mk.injEq] at h
      obtain ⟨h4, h5⟩ := h
      subst h4
      exact ⟨le_trans (le_trans (Nat.sub_le _ _) hpc) (by norm_num), hstk, hv, hmem, ht⟩
  rw [if_neg h0A] at h
  by_cases h15 : decode_byte opcode = 0x15
  · rw [if_pos h15] at h
    simp only [Option.some.injEq, Prod.mk.injEq] at h
    obtain ⟨h4, h5⟩ := h
    subst h4
    exact ⟨le_trans hpc (by norm_num), hstk, hv, hmem, hv _⟩
  rw [if_neg h15] at h
  by_cases h18 : decode_byte opcode = 0x18
  · rw [if_pos h18] at h
    simp only [Option.some.injEq, Prod.mk.injEq] at h
    obtain ⟨h4, h5⟩ := h
    subst h4
    exact ⟨le_trans hpc (by norm_num), hstk, hv, hmem, ht⟩
  rw [if_neg h18] at h
  by_cases h1E : decode_byte opcode = 0x1E
  · rw [if_pos h1E] at h
    simp only [Option.some.injEq, Prod.mk.injEq] at h
    obtain ⟨h4, h5⟩ := h
    subst h4
    exact ⟨le_trans hpc (by norm_num), hstk, hv, hmem, ht⟩
  rw [if_neg h1E] at h
  by_cases h29 : decode_byte opcode = 0x29
  · rw [if_pos h29] at h
    simp only [Option.some.injEq, Prod.mk.injEq] at h
    obtain ⟨h4, h5⟩ := h
    subst h4
    exact ⟨le_trans hpc (by norm_num), hstk, hv, hmem, ht⟩
  rw [if_neg h29] at h
  by_cases h33 : decode_byte opcode = 0x33
  · rw [if_pos h33] at h
    by_cases hg : c.vm.i + 2 < 4096
    · rw [if_pos hg] at h
      simp only [Option.some.injEq, Prod.mk.injEq] at h
      obtain ⟨h4, h5⟩ := h
      subst h4
      exact ⟨le_trans hpc (by norm_num), hstk, hv,
        update_lt (update_lt (update_lt hmem
          (lt_of_le_of_lt (Nat.div_le_self _ _) (hv _)))
          (lt_of_le_of_lt (Nat.div_le_self _ _)
            (lt_of_lt_of_le (Nat.mod_lt _ (by norm_num)) (by norm_num))))
          (lt_of_lt_of_le (Nat.mod_lt _ (by norm_num)) (by norm_num)), ht⟩
    · rw [if_neg hg] at h
      exact Option.noConfusion h
  rw [if_neg h33] at h
  by_cases h55 : decode_byte opcode = 0x55
  · rw [if_pos h55] at h
    by_cases hg : c.vm.i + decode_x opcode < 4096
    · rw [if_pos hg] at h
      simp only [Option.some.injEq, Prod.mk.injEq] at h
      obtain ⟨h4, h5⟩ := h
      subst h4
      exact ⟨le_trans hpc (by norm_num), hstk, hv,
        fun a => storeRegs_lt hmem hv _ a, ht⟩
    · rw [if_neg hg] at h
      exact Option.noConfusion h
  rw [if_neg h55] at h
  by_cases h65 : decode_byte opcode = 0x65
  · rw [if_pos h65] at h
    by_cases hg : c.vm.i + decode_x opcode < 4096
    · rw [if_pos hg] at h
      simp only [Option.some.injEq, Prod.mk.injEq] at h
      obtain ⟨h4, h5⟩ := h
      subst h4
      exact ⟨le_trans hpc (by norm_num), hstk,
        fun k => loadRegs_lt hv hmem _ k, hmem, ht⟩
    · rw [if_neg hg] at h
      exact Option.noConfusion h
  rw [if_neg h65] at h
  simp only [Option.some.injEq, Prod.mk.injEq] at h
  obtain ⟨h4, h5⟩ := h
  subst h4
  exact ⟨le_trans hpc (by norm_num), hstk, hv, hmem, ht⟩

/-- A freshly constructed machine has bytewise-bounded memory. -/
lemma new_memory_lt : ∀ a, VirtualMachine.new.memory a < 256 := by
  intro a
  show (if a < 0x50 then fontsByte a else 0) < 256
  split_ifs
  · exact fontsByte_lt a
  · norm_num

/-- The opcode dispatch preserves the size invariant. -/
lemma dispatch_inv {c c1 : Config} {opcode rnd : Nat} {msg : Option String}
    (hpre : PreInv c) (h : dispatch c opcode rnd = some (c1, msg)) : InvC c1 := by
  unfold dispatch at h
  by_cases e0 : opcode / 4096 = 0
  · rw [if_pos e0] at h; exact exec0_inv hpre h
  rw [if_neg e0] at h
  by_cases e1 : opcode / 4096 = 1
  · rw [if_pos e1] at h; exact exec1_inv hpre h
  rw [if_neg e1] at h
  by_cases e2 : opcode / 4096 = 2
  · rw [if_pos e2] at h; exact exec2_inv hpre h
  rw [if_neg e2] at h
  by_cases e3 : opcode / 4096 = 3
  · rw [if_pos e3] at h; exact exec3_inv hpre h
  rw [if_neg e3] at h
  by_cases e4 : opcode / 4096 = 4
  · rw [if_pos e4] at h; exact exec4_inv hpre h
  rw [if_neg e4] at h
  by_cases e5 : opcode / 4096 = 5
  · rw [if_pos e5] at h; exact exec5_inv hpre h
  rw [if_neg e5] at h
  by_cases e6 : opcode / 4096 = 6
  · rw [if_pos e6] at h; exact exec6_inv hpre h
  rw [if_neg e6] at h
  by_cases e7 : opcode / 4096 = 7
  · rw [if_pos e7] at h; exact exec7_inv hpre h
  rw [if_neg e7] at h
  by_cases e8 : opcode / 4096 = 8
  · rw [if_pos e8] at h; exact exec8_inv hpre h
  rw [if_neg e8] at h
  by_cases e9 : opcode / 4096 = 9
  · rw [if_pos e9] at h; exact exec9_inv hpre h
  rw [if_neg e9] at h
  by_cases e10 : opcode / 4096 = 10
  · rw [if_pos e10] at h; exact execA_inv hpre h
  rw [if_neg e10] at h
  by_cases e11 : opcode / 4096 = 11
  · rw [if_pos e11] at h; exact execB_inv hpre h
  rw [if_neg e11] at h
  by_cases e12 : opcode / 4096 = 12
  · rw [if_pos e12] at h; exact execC_inv hpre h
  rw [if_neg e12] at h
  by_cases e13 : opcode / 4096 = 13
  · rw [if_pos e13] at h; exact execD_inv hpre h
  rw [if_neg e13] at h
  by_cases e14 : opcode / 4096 = 14
  · rw [if_pos e14] at h; exact execE_inv hpre h
  rw [if_neg e14] at h
  by_cases e15 : opcode / 4096 = 15
  · rw [if_pos e15] at h; exact execF_inv hpre h
  rw [if_neg e15] at h
  exact Option.noConfusion h

/-- One `step` call, written as a guard on the fetch followed by the
dispatch on the fetched word. -/
lemma step_eq (c : Config) (rnd : Nat) :
    step c rnd =
      if c.vm.pc + 1 < 4096 then
        dispatch { c with vm := { c.vm with pc := c.vm.pc + 2 } }
          (c.vm.memory c.vm.pc * 256 + c.vm.memory (c.vm.pc + 1)) rnd
      else none := by
  unfold step VirtualMachine.fetch_opcode
  split_ifs <;> rfl

/-- One step (successful or failing) preserves the size invariant. -/
lemma step_inv {c c1 : Config} {rnd : Nat} {msg : Option String}
    (hinv : InvC c) (h : step c rnd = some (c1, msg)) : InvC c1 := by
  obtain ⟨hpc, hstk, hv, hmem, ht⟩ := hinv
  rw [step_eq] at h
  split_ifs at h with hb
  refine dispatch_inv ?_ h
  exact ⟨(show c.vm.pc + 2 ≤ 0x1000 by omega), hstk, hv, hmem, ht⟩

/-- Every reachable state satisfies the size invariant. -/
theorem reach_invC {c : Config} (h : Reach c) : InvC c := by
  induction h with
  | init bytes vm1 hbytes hload =>
    unfold VirtualMachine.load_bytes at hload
    split_ifs at hload with h1 h2
    · simp only [Option.some.injEq] at hload
      exact Except.noConfusion hload
    · simp only [Option.some.injEq, Except.ok.injEq] at hload
      subst hload
      exact ⟨(by norm_num : (0x200 : Nat) ≤ 0x10FE),
        fun k => Nat.zero_le _,
        fun k => (by norm_num : (0 : Nat) < 256),
        writeBytes_lt new_memory_lt hbytes,
        (by norm_num : (0 : Nat) < 256)⟩
  | next c c1 rnd msg hc hstep ih => exact step_inv ih hstep

/-- C5: `togglePixel` (display.rs `set`) addresses the pixel at
`(x mod 64, y mod 32)`, returns the AND of the current pixel and the
incoming value as the collision flag, XORs the incoming value into that
pixel, leaves every other pixel unchanged, and wraps: toggling at
`(64, 32)` is the same operation as toggling at `(0, 0)`. -/
theorem C5_togglePixel (d : Display) (x y : Nat) (value : Bool) :
    (d.set x y value).1 = (d.buffer (y % 32 * 64 + x % 64) && value) ∧
    (d.set x y value).2.buffer (y % 32 * 64 + x % 64) =
      xor (d.buffer (y % 32 * 64 + x % 64)) value ∧
    (∀ j, j ≠ y % 32 * 64 + x % 64 → (d.set x y value).2.buffer j = d.buffer j) ∧
    d.set 64 32 value = d.set 0 0 value := by
  refine ⟨rfl, Function.update_same _ _ _, ?_, rfl⟩
  intro j hj
  exact Function.update_noteq hj _ _

/-- Witness for C5 at concrete inputs: toggling `(3, 5)` on a fresh
framebuffer leaves the unrelated pixel index 7 off. -/
theorem C5_togglePixel_witness :
    (Display.new.set 3 5 true).2.buffer 7 = false :=
  (C5_togglePixel Display.new 3 5 true).2.2.1 7 (by norm_num)

/-- Latch state after the scenario First poll (marks pending). -/
def c9kb1 : Keyboard := ⟨fun _ => false, true, -1⟩

/-- Latch state after pressing key 5 while pending. -/
def c9kb2 : Keyboard := ⟨Function.update (fun _ => false) 5 true, true, 5⟩

/-- Latch state after releasing key 5: the latch still holds 5. -/
def c9kb3 : Keyboard :=
  ⟨Function.update (Function.update (fun _ => false) 5 true) 5 false, true, 5⟩

/-- Latch state after the poll that consumes the stale key. -/
def c9kb4 : Keyboard := ⟨c9kb3.keys, false, -1⟩

/-- C9: releasing a key (`set` with `pressed = false`) changes only that
key entry — the latched most-recent key and the pending flag survive —
so a blocking read can later complete with a key that is no longer held
down: after poll, press 5, release 5, the next poll still consumes key 5
even though `keys 5` is already false. -/
theorem C9_release_keeps_latch :
    (∀ (kb : Keyboard) (k : Nat), k < 16 →
      kb.set k false = some { kb with keys := Function.update kb.keys k false }) ∧
    Keyboard.new.poll = ((0, false), c9kb1) ∧
    c9kb1.set 5 true = some c9kb2 ∧
    c9kb2.set 5 false = some c9kb3 ∧
    c9kb3.keys 5 = false ∧
    c9kb3.poll = ((5, true), c9kb4) := by
  refine ⟨?_, rfl, rfl, rfl, rfl, rfl⟩
  intro kb k hk
  simp [Keyboard.set, hk]

/-- Witness for C9 at a concrete input: releasing key 3 on a fresh latch
only clears that key entry. -/
theorem C9_release_keeps_latch_witness :
    Keyboard.new.set 3 false =
      some { Keyboard.new with keys := Function.update Keyboard.new.keys 3 false } :=
  C9_release_keeps_latch.1 Keyboard.new 3 (by norm_num)

/-- C10: `reset` changes only the index register (to 0), the stack
pointer (to 0), the program counter (to `0x200`), and the first `0x50`
memory bytes (overwritten with the font table); registers, stored stack
entries, and memory from `0x50` up are untouched. -/
theorem C10_reset (vm : VirtualMachine) :
    vm.reset.i = 0 ∧ vm.reset.sp = 0 ∧ vm.reset.pc = 0x200 ∧
    (∀ a, a < 0x50 → vm.reset.memory a = fontsByte a) ∧
    (∀ a, 0x50 ≤ a → vm.reset.memory a = vm.memory a) ∧
    vm.reset.v = vm.v ∧ vm.reset.stack = vm.stack := by
  refine ⟨rfl, rfl, rfl, ?_, ?_, rfl, rfl⟩
  · intro a ha
    show (if a < 0x50 then fontsByte a else vm.memory a) = fontsByte a
    rw [if_pos ha]
  · intro a ha
    show (if a < 0x50 then fontsByte a else vm.memory a) = vm.memory a
    rw [if_neg (by omega)]

/-- Witness for C10 at a concrete input: resetting the fresh machine
keeps byte `0x60` and moves the counter to `0x200`. -/
theorem C10_reset_witness :
    VirtualMachine.new.reset.memory 0x60 = VirtualMachine.new.memory 0x60 ∧
    VirtualMachine.new.reset.pc = 0x200 :=
  ⟨(C10_reset VirtualMachine.new).2.2.2.2.1 0x60 (by norm_num),
   (C10_reset VirtualMachine.new).2.2.1⟩

/-- C2: evaluation of `load_bytes` around the documented limit.  A
3584-byte program (the largest the spec allows) loads fine, but a
3585-byte program is not rejected with the too-large error: the guard
compares against 4096, so the copy loop runs off the end of memory — a
panic (`none`) — and only programs beyond 4096 bytes get the error. -/
theorem C2_loadBytes_eval :
    VirtualMachine.new.load_bytes (List.replicate 3584 0) =
      some (Except.ok { VirtualMachine.new with
        memory := writeBytes VirtualMachine.new.memory 0x200 (List.replicate 3584 0) }) ∧
    VirtualMachine.new.load_bytes (List.replicate 3585 0) = none ∧
    VirtualMachine.new.load_bytes (List.replicate 4097 0) =
      some (Except.error "Too many bytes") := by
  unfold VirtualMachine.load_bytes
  rw [List.length_replicate, List.length_replicate, List.length_replicate]
  rw [if_neg (by decide : ¬(4096 < 3584)),
    if_pos (by decide : PROGRAM_START_ADDRESS + 3584 ≤ 4096),
    if_neg (by decide : ¬(4096 < 3585)),
    if_neg (by decide : ¬(PROGRAM_START_ADDRESS + 3585 ≤ 4096)),
    if_pos (by decide : 4096 < 4097)]
  exact ⟨rfl, rfl, rfl⟩

/-- CPU state for the BCD evaluation: `v[0] = 42`, `I = 0x300`, and the
two program bytes `F0 33` at `0x200`. -/
def c1vm : VirtualMachine :=
  { VirtualMachine.new with
    i := 0x300
    v := Function.update VirtualMachine.new.v 0 42
    memory := writeBytes VirtualMachine.new.memory 0x200 [0xF0, 0x33] }

/-- Engine-plus-peripherals state for the BCD evaluation. -/
def c1cfg : Config := initConfig c1vm

/-- The state the BCD evaluation steps to. -/
def c1res : Config :=
  { c1cfg with vm := { c1vm with
      pc := 0x202
      memory :=
        Function.update (Function.update (Function.update c1vm.memory
          0x300 0) 0x301 0) 0x302 2 } }

/-- C1: executing `Fx33` with `v[x] = 42` and `I = 0x300` writes
`0, 0, 2` at `I, I+1, I+2`: the middle byte is
`(42 % 100) / 100 = 0`, although the decimal tens digit of 42 is
`42 / 10 % 10 = 4` — the published middle-digit computation divides by
100 instead of 10 and can never produce a nonzero value. -/
theorem C1_bcd_eval :
    step c1cfg 0 = some (c1res, none) ∧
    c1res.vm.memory 0x300 = 0 ∧
    c1res.vm.memory 0x301 = 0 ∧
    c1res.vm.memory 0x302 = 2 ∧
    42 / 10 % 10 = 4 := by
  refine ⟨rfl, ?_, ?_, ?_, rfl⟩ <;> decide

/-- CPU state for the font-address counterexample: `v[1] = 18` (a value
with a nonzero high nibble) and the two program bytes `F1 29`. -/
def c3vm : VirtualMachine :=
  { VirtualMachine.new with
    v := Function.update VirtualMachine.new.v 1 18
    memory := writeBytes VirtualMachine.new.memory 0x200 [0xF1, 0x29] }

/-- Engine-plus-peripherals state for the font-address counterexample. -/
def c3cfg : Config := initConfig c3vm

/-- The state the font-address counterexample steps to. -/
def c3res : Config := { c3cfg with vm := { c3vm with pc := 0x202, i := 90 } }

/-- Counterexample to C3: executing `Fx29` with `v[1] = 18` sets the
index register to `5 * 18 = 90`, not to `5 * (18 mod 16) = 10`: the code
multiplies the full register byte, never masking to the low nibble. -/
theorem C3_counterexample :
    step c3cfg 0 = some (c3res, none) ∧
    c3res.vm.i = 90 ∧
    (c3res.vm.i == 5 * (18 % 16)) = false := by
  refine ⟨rfl, rfl, ?_⟩
  decide

/-- C3 (amended): executing `Fx29` via `step` sets the index register to
`v[x] * 5` — the full 8-bit register value times the glyph size, with no
masking — advances the program counter by 2, and changes nothing else. -/
theorem C3_font_addr (c : Config) (rnd x : Nat) {c1 : Config} {msg : Option String}
    (hx : x < 16)
    (hpc : c.vm.pc + 1 < 4096)
    (hhi : c.vm.memory c.vm.pc = 0xF0 + x)
    (hlo : c.vm.memory (c.vm.pc + 1) = 0x29)
    (hs : step c rnd = some (c1, msg)) :
    msg = none ∧
    c1.vm.i = c.vm.v x * 5 ∧
    c1.vm.pc = c.vm.pc + 2 ∧
    c1.vm.v = c.vm.v ∧ c1.vm.sp = c.vm.sp ∧
    c1.vm.memory = c.vm.memory ∧ c1.vm.stack = c.vm.stack ∧
    c1.timer = c.timer ∧ c1.sound = c.sound ∧
    c1.display = c.display ∧ c1.keyboard = c.keyboard := by
  rw [step_eq, if_pos hpc, hhi, hlo] at hs
  unfold dispatch at hs
  rw [show ((0xF0 + x) * 256 + 0x29) / 4096 = 15 from by omega] at hs
  norm_num at hs
  unfold exec_opcode_0xF at hs
  rw [show decode_byte ((0xF0 + x) * 256 + 0x29) = 0x29 from by
      unfold decode_byte; omega,
    show decode_x ((0xF0 + x) * 256 + 0x29) = x from by
      unfold decode_x; omega] at hs
  norm_num at hs
  obtain ⟨h4, h5⟩ := hs
  subst h4
  subst h5
  exact ⟨rfl, rfl, rfl, rfl, rfl, rfl, rfl, rfl, rfl, rfl, rfl⟩

/-- Witness for C3 at a concrete input: the same `F1 29` machine, via
the amended theorem. -/
theorem C3_font_addr_witness :
    c3res.vm.i = c3cfg.vm.v 1 * 5 ∧ c3res.vm.pc = c3cfg.vm.pc + 2 :=
  ⟨(C3_font_addr c3cfg 0 1 (by norm_num) (by decide) rfl rfl rfl).2.1,
   (C3_font_addr c3cfg 0 1 (by norm_num) (by decide) rfl rfl rfl).2.2.1⟩

/-- CPU state with the jump-to-end program `1F FF` loaded. -/
def c4vm : VirtualMachine :=
  { VirtualMachine.new with
    memory := writeBytes VirtualMachine.new.memory 0x200 [0x1F, 0xFF] }

/-- Engine-plus-peripherals state with the jump-to-end program. -/
def c4cfg : Config := initConfig c4vm

/-- The reachable state after the jump: the counter sits at `0xFFF`. -/
def c4res : Config := { c4cfg with vm := { c4vm with pc := 0xFFF } }

/-- Counterexample to C4: one step after loading `1F FF` the machine is
in a reachable state whose program counter is `0xFFF`, so `pc + 1 <
4096` fails, and the next `step` indeed dies on the out-of-bounds fetch
(`none`, the model of the Rust panic). -/
theorem C4_counterexample :
    Reach c4res ∧
    decide (c4res.vm.pc + 1 < 4096) = false ∧
    step c4res 0 = none :=
  ⟨Reach.next c4cfg c4res 0 none
      (Reach.init [0x1F, 0xFF] c4vm (by decide) rfl) rfl,
   rfl, rfl⟩

/-- C4 (amended): the program counter of every state reachable by load
and steps is bounded by `0x10FE` (a 12-bit jump-with-offset target plus
a register byte), but not by the memory size: it can point past the
4096-byte memory, in which case the next fetch reads out of bounds. -/
theorem C4_pc_bound {c : Config} (h : Reach c) : c.vm.pc ≤ 0x10FE :=
  (reach_invC h).1

/-- Witness for C4 at a concrete input: the freshly loaded empty program
satisfies the bound. -/
theorem C4_pc_bound_witness : (initConfig VirtualMachine.new).vm.pc ≤ 0x10FE :=
  C4_pc_bound (Reach.init [] VirtualMachine.new (by simp) rfl)

/-- CPU state for the flag-overwrite counterexample: `v[15] = 200`,
`v[0] = 100`, program `8F 04` (ADD V15, V0). -/
def c6xvm : VirtualMachine :=
  { VirtualMachine.new with
    v := Function.update (Function.update VirtualMachine.new.v 15 200) 0 100
    memory := writeBytes VirtualMachine.new.memory 0x200 [0x8F, 0x04] }

/-- Engine-plus-peripherals state for the flag-overwrite counterexample. -/
def c6xcfg : Config := initConfig c6xvm

/-- The state the flag-overwrite counterexample steps to. -/
def c6xres : Config :=
  { c6xcfg with vm := { c6xvm with
      pc := 0x202
      v := Function.update (Function.update c6xvm.v 15 1) 15 44 } }

/-- Counterexample to C6: `8F04` adds `V0 = 100` into `V15 = 200`; the
sum overflows, yet register 15 ends at the wrapped sum 44, not at the
overflow flag 1 — the result write to `Vx` lands after the flag write,
so for `x = 15` the flag is overwritten and the claim fails as stated
over all register indices. -/
theorem C6_counterexample :
    step c6xcfg 0 = some (c6xres, none) ∧
    c6xres.vm.v 15 = 44 ∧
    (c6xres.vm.v 15 == 1) = false ∧
    decide (256 ≤ c6xcfg.vm.v 15 + c6xcfg.vm.v 0) = true := by
  refine ⟨rfl, ?_, ?_, rfl⟩ <;> decide

/-- C6 (amended): `8xy4` stores the wrapped sum in `Vx` and `8xy5` the
wrapped difference, and each sets register 15 to its carry/no-borrow
flag — except when `x = 15`, where the later result write overwrites the
flag and register 15 holds the wrapped result instead. -/
theorem C6_alu_add_sub (c : Config) (rnd x y : Nat) {c1 : Config} {msg : Option String}
    (hx : x < 16) (hy : y < 16)
    (hpc : c.vm.pc + 1 < 4096)
    (hhi : c.vm.memory c.vm.pc = 0x80 + x)
    (hs : step c rnd = some (c1, msg)) :
    (c.vm.memory (c.vm.pc + 1) = 16 * y + 4 →
      msg = none ∧
      c1.vm.v x = (c.vm.v x + c.vm.v y) % 256 ∧
      (x ≠ 15 → c1.vm.v 15 = if 256 ≤ c.vm.v x + c.vm.v y then 1 else 0) ∧
      (x = 15 → c1.vm.v 15 = (c.vm.v x + c.vm.v y) % 256) ∧
      (∀ k, k ≠ x → k ≠ 15 → c1.vm.v k = c.vm.v k) ∧
      c1.vm.pc = c.vm.pc + 2) ∧
    (c.vm.memory (c.vm.pc + 1) = 16 * y + 5 →
      msg = none ∧
      c1.vm.v x = (c.vm.v x + 256 - c.vm.v y) % 256 ∧
      (x ≠ 15 → c1.vm.v 15 = if c.vm.v x < c.vm.v y then 0 else 1) ∧
      (x = 15 → c1.vm.v 15 = (c.vm.v x + 256 - c.vm.v y) % 256) ∧
      (∀ k, k ≠ x → k ≠ 15 → c1.vm.v k = c.vm.v k) ∧
      c1.vm.pc = c.vm.pc + 2) := by
  constructor <;> intro hlo
  · rw [step_eq, if_pos hpc, hhi, hlo] at hs
    unfold dispatch at hs
    rw [show ((0x80 + x) * 256 + (16 * y + 4)) / 4096 = 8 from by omega] at hs
    norm_num at hs
    unfold exec_opcode_0x8 alu8 at hs
    rw [show decode_nibb ((0x80 + x) * 256 + (16 * y + 4)) = 4 from by
        unfold decode_nibb; omega,
      show decode_x ((0x80 + x) * 256 + (16 * y + 4)) = x from by
        unfold decode_x; omega,
      show decode_y ((0x80 + x) * 256 + (16 * y + 4)) = y from by
        unfold decode_y; omega] at hs
    norm_num at hs
    obtain ⟨h4, h5⟩ := hs
    subst h4
    subst h5
    refine ⟨rfl, ?_, ?_, ?_, ?_, rfl⟩
    · dsimp only
      rw [Function.update_same]
    · intro hne
      dsimp only
      rw [Function.update_noteq (Ne.symm hne), Function.update_same]
    · intro he
      subst he
      dsimp only
      rw [Function.update_same]
    · intro k hk1 hk2
      dsimp only
      rw [Function.update_noteq hk1, Function.update_noteq hk2]
  · rw [step_eq, if_pos hpc, hhi, hlo] at hs
    unfold dispatch at hs
    rw [show ((0x80 + x) * 256 + (16 * y + 5)) / 4096 = 8 from by omega] at hs
    norm_num at hs
    unfold exec_opcode_0x8 alu8 at hs
    rw [show decode_nibb ((0x80 + x) * 256 + (16 * y + 5)) = 5 from by
        unfold decode_nibb; omega,
      show decode_x ((0x80 + x) * 256 + (16 * y + 5)) = x from by
        unfold decode_x; omega,
      show decode_y ((0x80 + x) * 256 + (16 * y + 5)) = y from by
        unfold decode_y; omega] at hs
    norm_num at hs
    obtain ⟨h4, h5⟩ := hs
    subst h4
    subst h5
    refine ⟨rfl, ?_, ?_, ?_, ?_, rfl⟩
    · dsimp only
      rw [Function.update_same]
    · intro hne
      dsimp only
      rw [Function.update_noteq (Ne.symm hne), Function.update_same]
    · intro he
      subst he
      dsimp only
      rw [Function.update_same]
    · intro k hk1 hk2
      dsimp only
      rw [Function.update_noteq hk1, Function.update_noteq hk2]

/-- CPU state for the ADD witness: `v[0] = 250`, `v[1] = 10`, program
`80 14` (ADD V0, V1). -/
def c6vm : VirtualMachine :=
  { VirtualMachine.new with
    v := Function.update (Function.update VirtualMachine.new.v 0 250) 1 10
    memory := writeBytes VirtualMachine.new.memory 0x200 [0x80, 0x14] }

/-- Engine-plus-peripherals state for the ADD witness. -/
def c6cfg : Config := initConfig c6vm

/-- The state the ADD witness steps to. -/
def c6res : Config :=
  { c6cfg with vm := { c6vm with
      pc := 0x202
      v := Function.update (Function.update c6vm.v 15 1) 0 4 } }

/-- CPU state for the SUB witness: `v[0] = 5`, `v[1] = 10`, program
`80 15` (SUB V0, V1). -/
def c6svm : VirtualMachine :=
  { VirtualMachine.new with
    v := Function.update (Function.update VirtualMachine.new.v 0 5) 1 10
    memory := writeBytes VirtualMachine.new.memory 0x200 [0x80, 0x15] }

/-- Engine-plus-peripherals state for the SUB witness. -/
def c6scfg : Config := initConfig c6svm

/-- The state the SUB witness steps to. -/
def c6sres : Config :=
  { c6scfg with vm := { c6svm with
      pc := 0x202
      v := Function.update (Function.update c6svm.v 15 0) 0 251 } }

/-- Witness for C6 at concrete inputs: adding 250 and 10 wraps to 4 with
flag 1; subtracting 10 from 5 wraps to 251 with flag 0. -/
theorem C6_alu_add_sub_witness :
    c6res.vm.v 0 = 4 ∧ c6res.vm.v 15 = 1 ∧
    c6sres.vm.v 0 = 251 ∧ c6sres.vm.v 15 = 0 :=
  ⟨((C6_alu_add_sub c6cfg 0 0 1 (by norm_num) (by norm_num) (by decide)
      rfl rfl).1 rfl).2.1,
   ((C6_alu_add_sub c6cfg 0 0 1 (by norm_num) (by norm_num) (by decide)
      rfl rfl).1 rfl).2.2.1 (by norm_num),
   ((C6_alu_add_sub c6scfg 0 0 1 (by norm_num) (by norm_num) (by decide)
      rfl rfl).2 rfl).2.1,
   ((C6_alu_add_sub c6scfg 0 0 1 (by norm_num) (by norm_num) (by decide)
      rfl rfl).2 rfl).2.2.1 (by norm_num)⟩

/-- C7: executing `Fx0A` via `step` polls the one-shot latch protocol.
When no request is pending or no key is latched, the poll reports not
ready (and marks a request pending): the counter is rewound so its net
change is zero and the registers are untouched.  When a request is
pending and a key is latched, the key is consumed into `Vx`, the pending
flag and the latch are cleared, and the counter advances by 2. -/
theorem C7_block_for_key (c : Config) (rnd x : Nat) {c1 : Config} {msg : Option String}
    (hx : x < 16)
    (hpc : c.vm.pc + 1 < 4096)
    (hhi : c.vm.memory c.vm.pc = 0xF0 + x)
    (hlo : c.vm.memory (c.vm.pc + 1) = 0x0A)
    (hs : step c rnd = some (c1, msg)) :
    msg = none ∧
    (¬(c.keyboard.polling = true ∧ 0 ≤ c.keyboard.last_pressed) →
      c1.vm.pc = c.vm.pc ∧ c1.vm.v = c.vm.v ∧
      c1.keyboard.polling = true ∧
      c1.keyboard.last_pressed = c.keyboard.last_pressed ∧
      c1.keyboard.keys = c.keyboard.keys) ∧
    ((c.keyboard.polling = true ∧ 0 ≤ c.keyboard.last_pressed) →
      c1.vm.v = Function.update c.vm.v x (c.keyboard.last_pressed.toNat % 256) ∧
      c1.keyboard.polling = false ∧
      c1.keyboard.last_pressed = -1 ∧
      c1.keyboard.keys = c.keyboard.keys ∧
      c1.vm.pc = c.vm.pc + 2) := by
  rw [step_eq, if_pos hpc, hhi, hlo] at hs
  unfold dispatch at hs
  rw [show ((0xF0 + x) * 256 + 0x0A) / 4096 = 15 from by omega] at hs
  norm_num at hs
  unfold exec_opcode_0xF at hs
  rw [show decode_byte ((0xF0 + x) * 256 + 0x0A) = 0x0A from by
      unfold decode_byte; omega,
    show decode_x ((0xF0 + x) * 256 + 0x0A) = x from by
      unfold decode_x; omega] at hs
  norm_num at hs
  by_cases hcond : c.keyboard.polling = true ∧ 0 ≤ c.keyboard.last_pressed
  · have hpoll : c.keyboard.poll =
        ((c.keyboard.last_pressed.toNat % 256, true),
          { c.keyboard with polling := false, last_pressed := -1 }) := by
      unfold Keyboard.poll
      rw [if_pos hcond]
    rw [hpoll] at hs
    norm_num at hs
    obtain ⟨h4, h5⟩ := hs
    subst h4
    subst h5
    exact ⟨rfl, fun hn => absurd hcond hn,
      fun _ => ⟨rfl, rfl, rfl, rfl, rfl⟩⟩
  · have hpoll : c.keyboard.poll =
        ((0, false), { c.keyboard with polling := true }) := by
      unfold Keyboard.poll
      rw [if_neg hcond]
    rw [hpoll] at hs
    norm_num at hs
    obtain ⟨h4, h5⟩ := hs
    subst h4
    subst h5
    exact ⟨rfl, fun _ => ⟨rfl, rfl, rfl, rfl, rfl⟩, fun hy => absurd hy hcond⟩

/-- CPU state for the ready-poll witness: program `F3 0A`. -/
def c7vm : VirtualMachine :=
  { VirtualMachine.new with
    memory := writeBytes VirtualMachine.new.memory 0x200 [0xF3, 0x0A] }

/-- A pending blocking read with key 7 latched. -/
def c7kb : Keyboard := ⟨fun _ => false, true, 7⟩

/-- Engine-plus-peripherals state for the ready-poll witness. -/
def c7cfg : Config := { initConfig c7vm with keyboard := c7kb }

/-- The state the ready-poll witness steps to. -/
def c7res : Config :=
  { c7cfg with
    keyboard := ⟨c7kb.keys, false, -1⟩
    vm := { c7vm with pc := 0x202, v := Function.update c7vm.v 3 7 } }

/-- Engine-plus-peripherals state for the not-ready witness: same
program, fresh latch (no request pending). -/
def c7ncfg : Config := initConfig c7vm

/-- The state the not-ready witness steps to: counter back where it
started, request now pending. -/
def c7nres : Config :=
  { c7ncfg with
    keyboard := ⟨Keyboard.new.keys, true, -1⟩
    vm := { c7vm with pc := 0x200 + 2 - 2 } }

/-- Witness for C7 at concrete inputs: a pending latched key 7 is
consumed into `v[3]` and the counter advances; with a fresh latch the
counter nets zero and polling is marked pending. -/
theorem C7_block_for_key_witness :
    c7res.vm.v = Function.update c7cfg.vm.v 3 7 ∧
    c7res.keyboard.polling = false ∧
    c7nres.vm.pc = c7ncfg.vm.pc ∧
    c7nres.keyboard.polling = true :=
  ⟨((C7_block_for_key c7cfg 0 3 (by norm_num) (by decide) rfl rfl
      rfl).2.2 ⟨rfl, by decide⟩).1,
   ((C7_block_for_key c7cfg 0 3 (by norm_num) (by decide) rfl rfl
      rfl).2.2 ⟨rfl, by decide⟩).2.1,
   ((C7_block_for_key c7ncfg 0 3 (by norm_num) (by decide) rfl rfl
      rfl).2.1 (by decide)).1,
   ((C7_block_for_key c7ncfg 0 3 (by norm_num) (by decide) rfl rfl
      rfl).2.1 (by decide)).2.2.1⟩

/-- CPU state for the empty-stack return: program `00 EE`, stack
pointer 0. -/
def c8vm : VirtualMachine :=
  { VirtualMachine.new with
    memory := writeBytes VirtualMachine.new.memory 0x200 [0x00, 0xEE] }

/-- Engine-plus-peripherals state for the empty-stack return. -/
def c8cfg : Config := initConfig c8vm

/-- The state the empty-stack return steps to: only the counter moved. -/
def c8res : Config := { c8cfg with vm := { c8vm with pc := 0x202 } }

/-- C8: executing `00EE` with stack pointer 0 via `step` fails with the
empty-call-stack error, and the resulting state equals the pre-step
state except that the program counter has advanced by 2 past the
faulting instruction — registers, index, stack, memory and all
peripherals unchanged. -/
theorem C8_ret_empty_stack (c : Config) (rnd : Nat) {c1 : Config} {msg : Option String}
    (hpc : c.vm.pc + 1 < 4096)
    (hhi : c.vm.memory c.vm.pc = 0x00)
    (hlo : c.vm.memory (c.vm.pc + 1) = 0xEE)
    (hsp : c.vm.sp = 0)
    (hs : step c rnd = some (c1, msg)) :
    msg = some "Empty call stack" ∧
    c1 = { c with vm := { c.vm with pc := c.vm.pc + 2 } } := by
  rw [step_eq, if_pos hpc, hhi, hlo] at hs
  unfold dispatch at hs
  rw [show (0x00 * 256 + 0xEE) / 4096 = 0 from by omega] at hs
  norm_num at hs
  unfold exec_opcode_0x0 at hs
  norm_num at hs
  rw [if_pos hsp] at hs
  norm_num at hs
  obtain ⟨h4, h5⟩ := hs
  subst h4
  subst h5
  exact ⟨rfl, rfl⟩

/-- Witness for C8 at a concrete input: the `00 EE` machine. -/
theorem C8_ret_empty_stack_witness :
    c8res = { c8cfg with vm := { c8cfg.vm with pc := c8cfg.vm.pc + 2 } } :=
  (C8_ret_empty_stack c8cfg 0 (by decide) rfl rfl rfl rfl).2

end Chip8
